import Mathlib

/-!
Verification of the 3-coloring generator/supervisor pair
(`1b_3coloring/generator.c`, `supervisor.c`, `ipc.h`, `util.c`).

The development shallowly embeds the pieces of the C sources that the checked
properties are about:

* the conflict-set computation `set_removal_candidates` (generator.c),
* one pass of the generator's search/publish loop over the shared circular
  buffer and the three semaphore counters (generator.c, main loop),
* one pass of the supervisor's listening loop (supervisor.c, main loop),
* the post-loop cleanup sequences of both processes (orderings of the
  munmap/close/unlink calls, `util.c close_sem`),
* a control-flow machine for the generator loop capturing the EINTR paths,
* the command-line graph construction `parse_argv` (generator.c), with the
  C vertex pointers represented by indices into the vertex array.

Machine integers stay well inside `int` range throughout (colors are 0..2,
lengths at most 200), so `Nat`/`Int` model them directly.
-/

namespace ThreeColoring

/-- ipc.h: `#define NUMBER_OF_ENTRIES 200`. -/
def NUMBER_OF_ENTRIES : Nat := 200

/-- ipc.h: `#define MAXIMUM_SOLUTION_LENGTH 8`. -/
def MAXIMUM_SOLUTION_LENGTH : Nat := 8

/-- `INT_MAX` on the target platform, used by supervisor.c to initialize
`current_best.length`. -/
def INT_MAX : Nat := 2147483647

/-- `EXIT_SUCCESS`. -/
def EXIT_SUCCESS : Nat := 0

/-- An edge as the pair of its endpoint vertex keys.  generator.c stores an
edge as two pointers into the vertex array; after construction the keys are
unique, so the key pair determines the edge. -/
abbrev EdgeK := Int × Int

/-- A coloring: the color currently stored in each vertex, addressed by the
vertex key (`randomize` writes `rand() % 3` into every vertex). -/
abbrev Coloring := Int → Nat

/-- generator.c, body of the `set_removal_candidates` scan condition:
`edges[i].v1->color == edges[i].v2->color`. -/
def isConflict (color : Coloring) (e : EdgeK) : Bool :=
  color e.1 == color e.2

/-- The loop of generator.c `set_removal_candidates` (lines 288-297): scan the
edges while `j < MAXIMUM_SOLUTION_LENGTH`, collecting edges whose endpoints
share a color; `j` is the number collected so far.  Returns the collected
list (its length is the `size_t` the C function returns). -/
def set_removal_candidates_go (color : Coloring) : List EdgeK → Nat → List EdgeK
  | [], _ => []
  | e :: rest, j =>
    if j < MAXIMUM_SOLUTION_LENGTH then
      if isConflict color e then
        e :: set_removal_candidates_go color rest (j + 1)
      else
        set_removal_candidates_go color rest j
    else []

/-- generator.c `set_removal_candidates` (lines 288-297). -/
def set_removal_candidates (edges : List EdgeK) (color : Coloring) : List EdgeK :=
  set_removal_candidates_go color edges 0

/-- The spec's notion of the conflict (obstruction) set, for comparison with
the code: "the full set of edges whose endpoints now share a color". -/
def conflictSet (edges : List EdgeK) (color : Coloring) : List EdgeK :=
  edges.filter (isConflict color)

theorem set_removal_candidates_go_eq (color : Coloring) :
    ∀ (l : List EdgeK) (j : Nat),
      set_removal_candidates_go color l j
        = (l.filter (isConflict color)).take (MAXIMUM_SOLUTION_LENGTH - j) := by
  intro l
  induction l with
  | nil => intro j; simp [set_removal_candidates_go]
  | cons e rest ih =>
    intro j
    by_cases hj : j < MAXIMUM_SOLUTION_LENGTH
    · by_cases hc : isConflict color e
      · have hsub : MAXIMUM_SOLUTION_LENGTH - j = (MAXIMUM_SOLUTION_LENGTH - (j + 1)) + 1 := by
          omega
        simp [set_removal_candidates_go, hj, hc, ih (j + 1), hsub]
      · simp [set_removal_candidates_go, hj, hc, ih j]
    · have hz : MAXIMUM_SOLUTION_LENGTH - j = 0 := by omega
      simp [set_removal_candidates_go, hj, hz]

theorem set_removal_candidates_eq_take (edges : List EdgeK) (color : Coloring) :
    set_removal_candidates edges color
      = (conflictSet edges color).take MAXIMUM_SOLUTION_LENGTH := by
  simp [set_removal_candidates, conflictSet, set_removal_candidates_go_eq]

theorem set_removal_candidates_length_le (edges : List EdgeK) (color : Coloring) :
    (set_removal_candidates edges color).length ≤ MAXIMUM_SOLUTION_LENGTH := by
  rw [set_removal_candidates_eq_take]
  simp [List.length_take_le MAXIMUM_SOLUTION_LENGTH (conflictSet edges color)]

/-- ipc.h `cb_entry_t`: a slot of the circular buffer.  The C struct stores a
`length` and two arrays of `MAXIMUM_SOLUTION_LENGTH` vertex keys; the model
keeps the meaningful prefix of the two arrays as the list of
`(from_vertices[i], to_vertices[i])` pairs. -/
structure CBEntry where
  length : Nat
  pairs : List EdgeK
deriving DecidableEq

/-- A freshly `ftruncate`d shared-memory object is zero-filled, so every slot
starts out with `length = 0`. -/
def CBEntry.zero : CBEntry := ⟨0, []⟩

/-- ipc.h `cb_t`: the shared circular buffer (`signal`, `rd`, `wr` and the
`NUMBER_OF_ENTRIES` slots, the latter as a function from slot index). -/
structure CB where
  signal : Nat
  rd : Nat
  wr : Nat
  entries : Nat → CBEntry

/-- The zero-initialized shared region the supervisor creates
(supervisor.c: `shm_open(O_CREAT)` + `ftruncate` on a fresh object). -/
def cb_init : CB :=
  { signal := 0, rd := 0, wr := 0, entries := fun _ => CBEntry.zero }

/-- The shared state a generator works on: the mapped circular buffer plus the
current counts of the three named semaphores (`free_sem`, `used_sem`,
`write_sem`; supervisor.c creates them with counts `NUMBER_OF_ENTRIES`, `0`
and `1`). -/
structure GenChannel where
  cb : CB
  free : Nat
  used : Nat
  write : Nat

/-- One iteration of the generator's while-loop body (generator.c lines
155-192), in the case where both `sem_wait` calls succeed: wait on
`write_sem`, wait on `free_sem`, recompute the conflict candidates for the
(already randomized) coloring, and then either hit the
`removal_candidates_length > MAXIMUM_SOLUTION_LENGTH` branch — whose
`continue` keeps both acquired permits and touches nothing else — or write
the candidate list into `entries[wr]`, advance `wr` modulo
`NUMBER_OF_ENTRIES`, post `used_sem` and post `write_sem`. -/
def generator_iteration (edges : List EdgeK) (color : Coloring) (s : GenChannel) :
    GenChannel :=
  let afterWaits : GenChannel := { s with write := s.write - 1, free := s.free - 1 }
  let cands := set_removal_candidates edges color
  if MAXIMUM_SOLUTION_LENGTH < cands.length then
    afterWaits
  else
    { afterWaits with
        cb := { afterWaits.cb with
                  wr := (afterWaits.cb.wr + 1) % NUMBER_OF_ENTRIES
                  entries := fun i =>
                    if i = afterWaits.cb.wr then ⟨cands.length, cands⟩
                    else afterWaits.cb.entries i }
        used := afterWaits.used + 1
        write := afterWaits.write + 1 }

/-- The publishing path of `generator_iteration` (generator.c lines 155-192
with the discard branch removed): acquire both semaphores, write the entry,
advance `wr`, post `used_sem` and `write_sem`. -/
def generator_publish (edges : List EdgeK) (color : Coloring) (s : GenChannel) :
    GenChannel :=
  let afterWaits : GenChannel := { s with write := s.write - 1, free := s.free - 1 }
  let cands := set_removal_candidates edges color
  { afterWaits with
      cb := { afterWaits.cb with
                wr := (afterWaits.cb.wr + 1) % NUMBER_OF_ENTRIES
                entries := fun i =>
                  if i = afterWaits.cb.wr then ⟨cands.length, cands⟩
                  else afterWaits.cb.entries i }
      used := afterWaits.used + 1
      write := afterWaits.write + 1 }

theorem generator_iteration_eq_publish (edges : List EdgeK) (color : Coloring)
    (s : GenChannel) :
    generator_iteration edges color s = generator_publish edges color s := by
  have h := set_removal_candidates_length_le edges color
  rw [generator_iteration, generator_publish, if_neg (by omega)]

/-- The supervisor's state: the mapped circular buffer, `current_best`
(supervisor.c line 79: only its `length` field is initialized, to `INT_MAX`),
and the counts of the `free_sem` and `used_sem` semaphores. -/
structure SupState where
  cb : CB
  best : CBEntry
  free : Nat
  used : Nat

/-- One pass of the supervisor's listening loop (supervisor.c lines 80-109)
in which `sem_wait(used_sem)` succeeds: consume one `used_sem` permit, then

* if `entries[rd % NUMBER_OF_ENTRIES].length == 0`: print that the graph is
  3-colorable, post `free_sem` and `break` (the returned flag is `true`;
  `rd` is not advanced on this branch);
* else if `entries[rd].length >= current_best.length`: advance `rd` modulo
  `NUMBER_OF_ENTRIES`, post `free_sem`, continue listening;
* else: remember `current_best = entries[rd]`, print it, advance `rd` modulo
  `NUMBER_OF_ENTRIES`, post `free_sem`, continue listening. -/
def supervisor_consume (s : SupState) : SupState × Bool :=
  let s := { s with used := s.used - 1 }
  if (s.cb.entries (s.cb.rd % NUMBER_OF_ENTRIES)).length = 0 then
    ({ s with free := s.free + 1 }, true)
  else if s.best.length ≤ (s.cb.entries s.cb.rd).length then
    ({ s with cb := { s.cb with rd := (s.cb.rd + 1) % NUMBER_OF_ENTRIES }
              free := s.free + 1 }, false)
  else
    ({ s with best := s.cb.entries s.cb.rd
              cb := { s.cb with rd := (s.cb.rd + 1) % NUMBER_OF_ENTRIES }
              free := s.free + 1 }, false)

/-- `n` passes of the listening loop, stopping early when a pass breaks. -/
def supervisor_run : SupState → Nat → SupState
  | s, 0 => s
  | s, n + 1 =>
    let r := supervisor_consume s
    if r.2 then r.1 else supervisor_run r.1 n

/-- The supervisor's starting state (supervisor.c lines 53-79): fresh zeroed
shared region, `current_best.length = INT_MAX`, semaphores created with
counts `NUMBER_OF_ENTRIES` (free), `0` (used). -/
def supervisor_init : SupState :=
  { cb := cb_init, best := ⟨INT_MAX, []⟩, free := NUMBER_OF_ENTRIES, used := 0 }

/-- supervisor.c line 112, directly after the listening loop:
`cb->signal = 1`. -/
def supervisor_set_terminate (cb : CB) : CB := { cb with signal := 1 }

/-- generator.c line 154: the loop guard `!quit && cb->signal == 0`. -/
def generator_loop_guard (quit : Bool) (signal : Nat) : Bool :=
  !quit && signal == 0

/-- generator.c lines 194-207: once the loop is left (on `quit` or on the
supervisor's terminate flag) the generator always returns `EXIT_SUCCESS`. -/
def generator_exit_code : Nat := EXIT_SUCCESS

/-- The three named POSIX semaphores of ipc.h. -/
inductive SemName
  | freeSem
  | usedSem
  | writeSem
deriving DecidableEq

/-- The OS resource-lifecycle calls the two processes make while shutting
down.  `setTerminateFlag` stands for the write `cb->signal = 1`. -/
inductive ResAction
  | setTerminateFlag
  | munmapShm
  | closeShmFd
  | shmUnlink
  | semClose (n : SemName)
  | semUnlink (n : SemName)
deriving DecidableEq

/-- util.c `close_sem` (lines 28-31): `sem_close(sem); sem_unlink(name);`. -/
def close_sem (n : SemName) : List ResAction :=
  [ResAction.semClose n, ResAction.semUnlink n]

/-- generator.c lines 198-206: the cleanup calls the generator makes after
leaving its loop (normal exit or exit ordered by the supervisor), in program
order: `munmap`, `close(fd)`, then `close_sem` on each of the three named
semaphores. -/
def generator_cleanup : List ResAction :=
  [ResAction.munmapShm, ResAction.closeShmFd]
    ++ close_sem SemName.freeSem ++ close_sem SemName.usedSem
    ++ close_sem SemName.writeSem

/-- supervisor.c lines 111-121: the calls after the listening loop, in
program order: `cb->signal = 1`, `munmap`, `close(fd)`, `shm_unlink`, then
`close_sem` on each of the three named semaphores. -/
def supervisor_shutdown : List ResAction :=
  [ResAction.setTerminateFlag, ResAction.munmapShm, ResAction.closeShmFd,
    ResAction.shmUnlink]
    ++ close_sem SemName.freeSem ++ close_sem SemName.usedSem
    ++ close_sem SemName.writeSem

/-- The places at which the generator's loop can be observed: about to test
the loop guard, blocked in `sem_wait(write_sem)`, blocked in
`sem_wait(free_sem)`, executing the (non-blocking) publish code, or out of
the loop. -/
inductive GLoc
  | top
  | acquiringWrite
  | acquiringFree
  | publishing
  | exited
deriving DecidableEq

/-- The two ways a `sem_wait` can return here: success, or `-1` with
`errno == EINTR`.  The latter means a handled signal (SIGINT or SIGTERM, the
only ones generator.c installs a handler for) interrupted the wait, and that
handler has set the global `quit` flag. -/
inductive WaitResult
  | ok
  | eintr
deriving DecidableEq

/-- The generator loop's control state: the location, the `quit` flag, the
shared `cb->signal` field and the three semaphore counts. -/
structure GenRun where
  loc : GLoc
  quit : Bool
  signal : Nat
  write : Nat
  free : Nat
  used : Nat
deriving DecidableEq

/-- One control step of the generator loop (generator.c lines 154-192).  At
the guard, a true `!quit && cb->signal == 0` proceeds to
`sem_wait(write_sem)`, otherwise the loop is left.  A successful wait
consumes one permit of the semaphore waited on; an `EINTR` result executes
`continue` — control returns to the loop guard with `quit` set by the
handler and the permits acquired so far still held.  The publish code posts
`used_sem` and `write_sem` and returns to the guard. -/
def gstep (s : GenRun) (r : WaitResult) : GenRun :=
  match s.loc with
  | GLoc.top =>
    if generator_loop_guard s.quit s.signal then { s with loc := GLoc.acquiringWrite }
    else { s with loc := GLoc.exited }
  | GLoc.acquiringWrite =>
    match r with
    | WaitResult.ok => { s with write := s.write - 1, loc := GLoc.acquiringFree }
    | WaitResult.eintr => { s with quit := true, loc := GLoc.top }
  | GLoc.acquiringFree =>
    match r with
    | WaitResult.ok => { s with free := s.free - 1, loc := GLoc.publishing }
    | WaitResult.eintr => { s with quit := true, loc := GLoc.top }
  | GLoc.publishing =>
    { s with used := s.used + 1, write := s.write + 1, loc := GLoc.top }
  | GLoc.exited => s

/-- Run the control machine over a list of wait results (results are only
consulted at the two wait locations). -/
def grun : GenRun → List WaitResult → GenRun
  | s, [] => s
  | s, r :: rs => grun (gstep s r) rs

/-- ipc.h `vertex_t`: a key and the current color. -/
structure Vertex where
  key : Int
  color : Nat
deriving DecidableEq

/-- The generator's graph under construction: the vertex array and the edge
array.  generator.c stores an edge as two pointers into the vertex array;
the model represents each pointer by the index of the vertex it points at
(addresses of elements of the C array are stable, and distinct indices are
distinct addresses). -/
structure Graph where
  vertices : List Vertex
  edges : List (Nat × Nat)
deriving DecidableEq

/-- generator.c `find_vertex_by_key` (lines 282-289): linear scan for the
first vertex with the given key; `some i` models returning the pointer
`&vertices[i]`, `none` models `NULL`. -/
def find_vertex_by_key : List Vertex → Int → Option Nat
  | [], _ => none
  | v :: vs, k =>
    if v.key = k then some 0
    else (find_vertex_by_key vs k).map (· + 1)

/-- generator.c `add_new_vertex` (lines 256-262): append `{key, color = 0}`
and return the new vertex's position. -/
def add_new_vertex (g : Graph) (k : Int) : Graph × Nat :=
  ({ g with vertices := g.vertices ++ [⟨k, 0⟩] }, g.vertices.length)

/-- The `edges[i].v1 == v1 && edges[i].v2 == v2 || ...` test of
generator.c `find_edge_by_vertices` (line 266): the stored edge equals the
queried vertex pair in either order (pointer equality, i.e. index
equality). -/
def edge_matches (e : Nat × Nat) (i1 i2 : Nat) : Bool :=
  (e.1 == i1 && e.2 == i2) || (e.1 == i2 && e.2 == i1)

/-- generator.c `find_edge_by_vertices` (lines 264-271): linear scan for an
edge equal to `(i1, i2)` regardless of vertex order. -/
def find_edge_by_vertices (es : List (Nat × Nat)) (i1 i2 : Nat) :
    Option (Nat × Nat) :=
  es.find? (fun e => edge_matches e i1 i2)

/-- generator.c `add_new_edge` (lines 250-254): append the edge. -/
def add_new_edge (g : Graph) (i1 i2 : Nat) : Graph :=
  { g with edges := g.edges ++ [(i1, i2)] }

/-- generator.c lines 234-242: `v = find_vertex_by_key(...); if (v == NULL)
v = add_new_vertex(...);` — the vertex's position together with the possibly
extended graph. -/
def get_or_add_vertex (g : Graph) (k : Int) : Graph × Nat :=
  match find_vertex_by_key g.vertices k with
  | some i => (g, i)
  | none => add_new_vertex g k

/-- The per-token body of generator.c `parse_argv` (lines 225-247), after the
token has been split and its two keys parsed: look the two keys up in the
vertex array, adding any that is missing, then add the edge unless an equal
edge (in either vertex order) is already present. -/
def parse_token (g : Graph) (k1 k2 : Int) : Graph :=
  let p1 := get_or_add_vertex g k1
  let p2 := get_or_add_vertex p1.1 k2
  match find_edge_by_vertices p2.1.edges p1.2 p2.2 with
  | some _ => p2.1
  | none => add_new_edge p2.1 p1.2 p2.2

/-- generator.c `parse_argv` (lines 209-248) over the already-tokenized
argument list: fold the per-token body over the tokens, starting from empty
arrays. -/
def parse_argv (tokens : List (Int × Int)) : Graph :=
  tokens.foldl (fun g t => parse_token g t.1 t.2) ⟨[], []⟩

/-- Well-formedness of the constructed graph: vertex keys are pairwise
distinct, every stored edge's two indices point into the vertex array, and
no two stored edges are equal as unordered index pairs. -/
def GraphWF (g : Graph) : Prop :=
  (g.vertices.map Vertex.key).Nodup
    ∧ (∀ e ∈ g.edges, e.1 < g.vertices.length ∧ e.2 < g.vertices.length)
    ∧ g.edges.Pairwise (fun e f => edge_matches e f.1 f.2 = false)

theorem find_vertex_by_key_lt :
    ∀ (vs : List Vertex) (k : Int) (i : Nat),
      find_vertex_by_key vs k = some i → i < vs.length := by
  intro vs
  induction vs with
  | nil => intro k i h; simp [find_vertex_by_key] at h
  | cons v rest ih =>
    intro k i h
    by_cases hk : v.key = k
    · simp [find_vertex_by_key, hk] at h
      simp only [List.length_cons]
      omega
    · simp [find_vertex_by_key, hk] at h
      obtain ⟨j, hj, rfl⟩ := h
      have := ih k j hj
      simp only [List.length_cons]
      omega

theorem find_vertex_by_key_none :
    ∀ (vs : List Vertex) (k : Int),
      find_vertex_by_key vs k = none → ∀ v ∈ vs, v.key ≠ k := by
  intro vs
  induction vs with
  | nil => intro k _ v hv; simp at hv
  | cons w rest ih =>
    intro k h v hv
    by_cases hk : w.key = k
    · simp [find_vertex_by_key, hk] at h
    · simp [find_vertex_by_key, hk] at h
      rw [List.mem_cons] at hv
      rcases hv with rfl | hv
      · exact hk
      · exact ih k h v hv

theorem get_or_add_vertex_edges (g : Graph) (k : Int) :
    (get_or_add_vertex g k).1.edges = g.edges := by
  unfold get_or_add_vertex
  cases h : find_vertex_by_key g.vertices k <;> simp [add_new_vertex]

theorem get_or_add_vertex_len (g : Graph) (k : Int) :
    g.vertices.length ≤ (get_or_add_vertex g k).1.vertices.length := by
  unfold get_or_add_vertex
  cases h : find_vertex_by_key g.vertices k <;> simp [add_new_vertex]

theorem get_or_add_vertex_idx_lt (g : Graph) (k : Int) :
    (get_or_add_vertex g k).2 < (get_or_add_vertex g k).1.vertices.length := by
  unfold get_or_add_vertex
  cases h : find_vertex_by_key g.vertices k with
  | none => simp [add_new_vertex]
  | some i => simpa using find_vertex_by_key_lt g.vertices k i h

theorem get_or_add_vertex_nodup (g : Graph) (k : Int)
    (h : (g.vertices.map Vertex.key).Nodup) :
    ((get_or_add_vertex g k).1.vertices.map Vertex.key).Nodup := by
  unfold get_or_add_vertex
  cases hf : find_vertex_by_key g.vertices k with
  | some i => simpa using h
  | none =>
    have hk := find_vertex_by_key_none g.vertices k hf
    simp [add_new_vertex, List.nodup_append, h]
    intro v hv hkey
    exact hk v hv hkey

theorem parse_token_WF (g : Graph) (k1 k2 : Int) (h : GraphWF g) :
    GraphWF (parse_token g k1 k2) := by
  obtain ⟨hnd, hvalid, hpw⟩ := h
  unfold parse_token
  have hnd1 := get_or_add_vertex_nodup g k1 hnd
  have hnd2 := get_or_add_vertex_nodup (get_or_add_vertex g k1).1 k2 hnd1
  have hlen1 := get_or_add_vertex_len g k1
  have hlen2 := get_or_add_vertex_len (get_or_add_vertex g k1).1 k2
  have hi1 : (get_or_add_vertex g k1).2
      < ((get_or_add_vertex (get_or_add_vertex g k1).1 k2).1).vertices.length := by
    have := get_or_add_vertex_idx_lt g k1
    omega
  have hi2 := get_or_add_vertex_idx_lt (get_or_add_vertex g k1).1 k2
  have hedges : ((get_or_add_vertex (get_or_add_vertex g k1).1 k2).1).edges
      = g.edges := by
    rw [get_or_add_vertex_edges, get_or_add_vertex_edges]
  have hvalid2 : ∀ e ∈ ((get_or_add_vertex (get_or_add_vertex g k1).1 k2).1).edges,
      e.1 < ((get_or_add_vertex (get_or_add_vertex g k1).1 k2).1).vertices.length
        ∧ e.2 < ((get_or_add_vertex (get_or_add_vertex g k1).1 k2).1).vertices.length := by
    rw [hedges]
    intro e he
    have := hvalid e he
    omega
  cases hfe : find_edge_by_vertices
      ((get_or_add_vertex (get_or_add_vertex g k1).1 k2).1).edges
      (get_or_add_vertex g k1).2
      ((get_or_add_vertex (get_or_add_vertex g k1).1 k2).2) with
  | some e =>
    dsimp only
    rw [hfe]
    refine ⟨hnd2, hvalid2, ?_⟩
    rw [hedges]
    exact hpw
  | none =>
    have hnomatch : ∀ e ∈ ((get_or_add_vertex (get_or_add_vertex g k1).1 k2).1).edges,
        edge_matches e (get_or_add_vertex g k1).2
          ((get_or_add_vertex (get_or_add_vertex g k1).1 k2).2) = false := by
      intro e he
      have := List.find?_eq_none.mp hfe e he
      simpa using this
    dsimp only
    rw [hfe]
    refine ⟨by simpa [add_new_edge] using hnd2, ?_, ?_⟩
    · intro e he
      simp only [add_new_edge, List.mem_append, List.mem_singleton] at he
      rcases he with he | he
      · have := hvalid2 e he
        simpa [add_new_edge] using this
      · simp only [add_new_edge, he]
        exact ⟨hi1, hi2⟩
    · simp only [add_new_edge, List.pairwise_append, List.pairwise_singleton,
        List.mem_singleton, true_and]
      refine ⟨by rw [hedges]; exact hpw, ?_⟩
      intro e he f hf
      subst hf
      exact hnomatch e he

theorem parse_argv_WF_from (tokens : List (Int × Int)) :
    ∀ g : Graph, GraphWF g →
      GraphWF (tokens.foldl (fun g t => parse_token g t.1 t.2) g) := by
  induction tokens with
  | nil => intro g h; simpa using h
  | cons t rest ih =>
    intro g h
    exact ih (parse_token g t.1 t.2) (parse_token_WF g t.1 t.2 h)

/-- A slot that respects the array bound of `cb_entry_t`: at most
`MAXIMUM_SOLUTION_LENGTH` pairs are recorded. -/
def EntryWF (e : CBEntry) : Prop := e.length ≤ MAXIMUM_SOLUTION_LENGTH

/-- Every slot of the buffer respects the array bound. -/
def CBWF (cb : CB) : Prop := ∀ i, EntryWF (cb.entries i)

theorem supervisor_consume_entries (s : SupState) :
    (supervisor_consume s).1.cb.entries = s.cb.entries := by
  unfold supervisor_consume
  dsimp only
  split
  · rfl
  · split <;> rfl

theorem supervisor_consume_nonzero (s : SupState)
    (h : (s.cb.entries (s.cb.rd % NUMBER_OF_ENTRIES)).length ≠ 0) :
    (supervisor_consume s).1.cb.rd = (s.cb.rd + 1) % NUMBER_OF_ENTRIES
      ∧ (supervisor_consume s).1.free = s.free + 1
      ∧ (supervisor_consume s).2 = false := by
  unfold supervisor_consume
  dsimp only
  rw [if_neg h]
  split <;> exact ⟨rfl, rfl, rfl⟩

theorem supervisor_consume_zero (s : SupState)
    (h : (s.cb.entries (s.cb.rd % NUMBER_OF_ENTRIES)).length = 0) :
    (supervisor_consume s).1.cb.rd = s.cb.rd
      ∧ (supervisor_consume s).1.free = s.free + 1
      ∧ (supervisor_consume s).2 = true := by
  unfold supervisor_consume
  dsimp only
  rw [if_pos h]
  exact ⟨rfl, rfl, rfl⟩

theorem supervisor_consume_best_le (s : SupState) :
    (supervisor_consume s).1.best.length ≤ s.best.length := by
  unfold supervisor_consume
  dsimp only
  split
  · exact Nat.le_refl _
  · split
    · exact Nat.le_refl _
    · rename_i hge
      exact Nat.le_of_lt (Nat.lt_of_not_le hge)

/-- A 9-edge path graph: `0-1 1-2 ... 8-9`. -/
def edges9 : List EdgeK :=
  [(0, 1), (1, 2), (2, 3), (3, 4), (4, 5), (5, 6), (6, 7), (7, 8), (8, 9)]

/-- The coloring in which every vertex got color 0 — one of the draws
`randomize` can produce, under which all nine edges of `edges9` conflict. -/
def colorAll0 : Coloring := fun _ => 0

/-- A coloring of `{0, 1}` that 3-colors the single edge `0-1`. -/
def colorSplit : Coloring := fun k => if k = 0 then 0 else 1

/-- The channel as the first generator attaches to it: zeroed buffer,
`free_sem = NUMBER_OF_ENTRIES`, `used_sem = 0`, `write_sem = 1`. -/
def genchan0 : GenChannel :=
  { cb := cb_init, free := NUMBER_OF_ENTRIES, used := 0, write := 1 }

/-- The supervisor's view right after a generator published a zero-conflict
entry for the one-edge graph `0-1` into the fresh channel: the supervisor
holds the channel from `supervisor_init` but the buffer and the `free_sem` /
`used_sem` counts are those left by that publish. -/
def supAfterZeroPublish : SupState :=
  { cb := (generator_iteration [((0 : Int), (1 : Int))] colorSplit genchan0).cb
    best := ⟨INT_MAX, []⟩
    free := (generator_iteration [((0 : Int), (1 : Int))] colorSplit genchan0).free
    used := (generator_iteration [((0 : Int), (1 : Int))] colorSplit genchan0).used }

/-- C1: the claim asks that an iteration whose conflict set is larger than
`MAXIMUM_SOLUTION_LENGTH` leave the channel untouched, with no semaphore
permit acquired, no slot written and `wr` unchanged.  On the 9-edge path
`edges9` under the all-zero coloring the full conflict set has 9 > 8 edges,
yet the iteration on the fresh channel acquires both permits before any size
check, truncates the candidate list to 8, writes slot 0, advances `wr` to 1
and posts `used_sem`: the channel state is not what it was before the
iteration, and no discard happens. -/
theorem oversized_conflict_set_is_published_not_discarded :
    (conflictSet edges9 colorAll0).length = 9
      ∧ MAXIMUM_SOLUTION_LENGTH < (conflictSet edges9 colorAll0).length
      ∧ genchan0.cb.wr = 0 ∧ genchan0.used = 0
      ∧ genchan0.free = 200 ∧ genchan0.write = 1
      ∧ (generator_iteration edges9 colorAll0 genchan0).cb.wr = 1
      ∧ (generator_iteration edges9 colorAll0 genchan0).used = 1
      ∧ (generator_iteration edges9 colorAll0 genchan0).free = 199
      ∧ (generator_iteration edges9 colorAll0 genchan0).cb.entries 0
          = ⟨8, [(0, 1), (1, 2), (2, 3), (3, 4), (4, 5), (5, 6), (6, 7), (7, 8)]⟩ := by
  decide

/-- C2 counterexample: on the 9-edge path `edges9` under the all-zero
coloring the full set of monochromatic edges has 9 elements, but the
candidate the generator builds keeps only the first 8 of them and its
recorded length is 8, not 9 — the entry is not the full conflict set. -/
theorem entry_omits_ninth_conflict_edge :
    conflictSet edges9 colorAll0 = edges9
      ∧ (conflictSet edges9 colorAll0).length = 9
      ∧ set_removal_candidates edges9 colorAll0
          = [(0, 1), (1, 2), (2, 3), (3, 4), (4, 5), (5, 6), (6, 7), (7, 8)]
      ∧ (set_removal_candidates edges9 colorAll0).length = 8
      ∧ (generator_iteration edges9 colorAll0 genchan0).cb.entries 0
          = ⟨8, [(0, 1), (1, 2), (2, 3), (3, 4), (4, 5), (5, 6), (6, 7), (7, 8)]⟩ := by
  decide

/-- C2 (amended): for every coloring, the candidate the generator builds is
the first `min |conflictSet| 8` edges — in edge-enumeration order, by vertex
key — of the set of edges whose endpoints share a color, and its length is
`min |conflictSet| 8`; the length is 0 exactly when no edge is
monochromatic, i.e. when the coloring is a valid 3-coloring. -/
theorem entry_is_conflict_set_truncated_to_eight :
    ∀ (edges : List EdgeK) (color : Coloring),
      set_removal_candidates edges color
          = (conflictSet edges color).take MAXIMUM_SOLUTION_LENGTH
        ∧ (set_removal_candidates edges color).length
            = min MAXIMUM_SOLUTION_LENGTH (conflictSet edges color).length
        ∧ ((set_removal_candidates edges color).length = 0
            ↔ ∀ e ∈ edges, color e.1 ≠ color e.2)
        ∧ ∀ s : GenChannel,
            (generator_iteration edges color s).cb.entries s.cb.wr
              = ⟨(set_removal_candidates edges color).length,
                  set_removal_candidates edges color⟩ := by
  intro edges color
  have hlen : (set_removal_candidates edges color).length
      = min MAXIMUM_SOLUTION_LENGTH (conflictSet edges color).length := by
    rw [set_removal_candidates_eq_take, List.length_take]
  refine ⟨set_removal_candidates_eq_take edges color, hlen, ?_, ?_⟩
  · rw [hlen]
    have hmin : min MAXIMUM_SOLUTION_LENGTH (conflictSet edges color).length = 0
        ↔ (conflictSet edges color).length = 0 := by
      have h8 : MAXIMUM_SOLUTION_LENGTH = 8 := rfl
      omega
    rw [hmin, List.length_eq_zero, conflictSet, List.filter_eq_nil_iff]
    constructor
    · intro h e he
      have := h e he
      simpa [isConflict] using this
    · intro h e he
      simpa [isConflict] using h e he
  · intro s
    rw [generator_iteration_eq_publish]
    simp [generator_publish]

/-- C3: `set_removal_candidates` stops scanning once 8 conflicting edges are
collected, so its result never exceeds `MAXIMUM_SOLUTION_LENGTH`, and the
generator's overflow-discard branch
(`removal_candidates_length > MAXIMUM_SOLUTION_LENGTH`) is never taken:
every iteration is the publishing path. -/
theorem discard_branch_unreachable :
    (∀ (edges : List EdgeK) (color : Coloring),
      (set_removal_candidates edges color).length ≤ MAXIMUM_SOLUTION_LENGTH)
      ∧ ∀ (edges : List EdgeK) (color : Coloring) (s : GenChannel),
          generator_iteration edges color s = generator_publish edges color s :=
  ⟨set_removal_candidates_length_le, generator_iteration_eq_publish⟩

/-- C9: every slot of the freshly created buffer has length 0 ≤ 8; a
generator iteration writes only entries of length at most
`MAXIMUM_SOLUTION_LENGTH`, preserving the bound over all slots; and the
supervisor, consuming from a buffer all of whose slots respect the bound,
reads an entry of length at most 8 and leaves the bound intact. -/
theorem consumed_length_at_most_eight :
    CBWF cb_init
      ∧ (∀ (edges : List EdgeK) (color : Coloring) (s : GenChannel),
          CBWF s.cb → CBWF (generator_iteration edges color s).cb)
      ∧ (∀ s : SupState, CBWF s.cb →
          (s.cb.entries (s.cb.rd % NUMBER_OF_ENTRIES)).length ≤ MAXIMUM_SOLUTION_LENGTH
            ∧ CBWF (supervisor_consume s).1.cb) := by
  refine ⟨?_, ?_, ?_⟩
  · intro i
    simp [cb_init, CBEntry.zero, EntryWF, MAXIMUM_SOLUTION_LENGTH]
  · intro edges color s h
    rw [generator_iteration_eq_publish]
    intro i
    simp only [generator_publish]
    by_cases hi : i = s.cb.wr
    · simp only [hi, if_pos rfl, EntryWF]
      exact set_removal_candidates_length_le edges color
    · simp only [if_neg hi]
      exact h i
  · intro s h
    refine ⟨h _, ?_⟩
    intro i
    rw [supervisor_consume_entries]
    exact h i

theorem supervisor_run_rd :
    ∀ (n : Nat) (s : SupState), s.cb.rd < NUMBER_OF_ENTRIES →
      (∀ i, (s.cb.entries i).length ≠ 0) →
      (supervisor_run s n).cb.rd = (s.cb.rd + n) % NUMBER_OF_ENTRIES := by
  intro n
  induction n with
  | zero =>
    intro s hrd _
    simp only [supervisor_run, Nat.add_zero]
    exact (Nat.mod_eq_of_lt hrd).symm
  | succ n ih =>
    intro s hrd hne
    obtain ⟨hadv, hfree, hstop⟩ := supervisor_consume_nonzero s (hne _)
    simp only [supervisor_run, hstop, Bool.false_eq_true, if_false]
    have hrd2 : (supervisor_consume s).1.cb.rd < NUMBER_OF_ENTRIES := by
      rw [hadv]
      exact Nat.mod_lt _ (by simp [NUMBER_OF_ENTRIES])
    have hne2 : ∀ i, ((supervisor_consume s).1.cb.entries i).length ≠ 0 := by
      intro i
      rw [supervisor_consume_entries]
      exact hne i
    rw [ih (supervisor_consume s).1 hrd2 hne2, hadv]
    simp only [NUMBER_OF_ENTRIES] at *
    omega

/-- C6 counterexample: a generator publishes a zero-conflict entry (slot 0,
the channel fresh), and the supervisor consumes it.  The consume reads
`slots[0]`, releases one `freeSlots` permit and stops the loop — but it does
not advance `readIndex`: `rd` is still 0 afterwards, so this consume does not
advance the read index by exactly one. -/
theorem zero_length_consume_keeps_read_index :
    (supAfterZeroPublish.cb.entries
        (supAfterZeroPublish.cb.rd % NUMBER_OF_ENTRIES)).length = 0
      ∧ supAfterZeroPublish.cb.rd = 0
      ∧ supAfterZeroPublish.free = 199
      ∧ (supervisor_consume supAfterZeroPublish).1.cb.rd = 0
      ∧ (supervisor_consume supAfterZeroPublish).1.free = 200
      ∧ (supervisor_consume supAfterZeroPublish).2 = true := by
  decide

/-- C6 (amended): the read index stays in `[0, NUMBER_OF_ENTRIES)`; every
consume releases one `freeSlots` permit; a consume of a nonzero-length entry
advances `rd` by exactly one modulo `NUMBER_OF_ENTRIES` and keeps listening,
while the consume of a zero-length entry leaves `rd` unchanged and ends
consumption; consequently, as long as only nonzero-length entries are
consumed, the read positions over a run are `rd, rd+1, rd+2, ...` modulo
`NUMBER_OF_ENTRIES` — strictly cyclic with no skips or repeats. -/
theorem read_index_cyclic_protocol :
    (∀ s : SupState, s.cb.rd < NUMBER_OF_ENTRIES →
      (supervisor_consume s).1.cb.rd < NUMBER_OF_ENTRIES)
      ∧ (∀ s : SupState,
          (s.cb.entries (s.cb.rd % NUMBER_OF_ENTRIES)).length ≠ 0 →
          (supervisor_consume s).1.cb.rd = (s.cb.rd + 1) % NUMBER_OF_ENTRIES
            ∧ (supervisor_consume s).1.free = s.free + 1
            ∧ (supervisor_consume s).2 = false)
      ∧ (∀ s : SupState,
          (s.cb.entries (s.cb.rd % NUMBER_OF_ENTRIES)).length = 0 →
          (supervisor_consume s).1.cb.rd = s.cb.rd
            ∧ (supervisor_consume s).1.free = s.free + 1
            ∧ (supervisor_consume s).2 = true)
      ∧ (∀ (n : Nat) (s : SupState), s.cb.rd < NUMBER_OF_ENTRIES →
          (∀ i, (s.cb.entries i).length ≠ 0) →
          (supervisor_run s n).cb.rd = (s.cb.rd + n) % NUMBER_OF_ENTRIES) := by
  refine ⟨?_, supervisor_consume_nonzero, supervisor_consume_zero, supervisor_run_rd⟩
  intro s hrd
  by_cases hz : (s.cb.entries (s.cb.rd % NUMBER_OF_ENTRIES)).length = 0
  · rw [(supervisor_consume_zero s hz).1]
    exact hrd
  · rw [(supervisor_consume_nonzero s hz).1]
    exact Nat.mod_lt _ (by simp [NUMBER_OF_ENTRIES])

/-- C7: `current_best.length` starts at `INT_MAX` ("infinity": no solution
known); one consume never increases it; a consumed nonzero entry whose
length is at least the current best leaves the remembered best entry
entirely unchanged; and a consumed entry with `0 < length < best` makes that
length the new best. -/
theorem best_length_monotone_protocol :
    supervisor_init.best.length = INT_MAX
      ∧ (∀ s : SupState, (supervisor_consume s).1.best.length ≤ s.best.length)
      ∧ (∀ s : SupState, s.cb.rd < NUMBER_OF_ENTRIES →
          (s.cb.entries s.cb.rd).length ≠ 0 →
          s.best.length ≤ (s.cb.entries s.cb.rd).length →
          (supervisor_consume s).1.best = s.best)
      ∧ (∀ s : SupState, s.cb.rd < NUMBER_OF_ENTRIES →
          0 < (s.cb.entries s.cb.rd).length →
          (s.cb.entries s.cb.rd).length < s.best.length →
          (supervisor_consume s).1.best.length = (s.cb.entries s.cb.rd).length) := by
  refine ⟨rfl, supervisor_consume_best_le, ?_, ?_⟩
  · intro s hrd hne hge
    unfold supervisor_consume
    dsimp only
    rw [Nat.mod_eq_of_lt hrd, if_neg hne, if_pos hge]
  · intro s hrd hpos hlt
    unfold supervisor_consume
    dsimp only
    rw [Nat.mod_eq_of_lt hrd, if_neg (by omega), if_neg (Nat.not_le.mpr hlt)]

/-- C8: consuming a zero-length entry announces 3-colorability and breaks
the listening loop (no further consume happens in the run); the supervisor's
post-loop sequence performs `cb->signal = 1` first, strictly before
`shm_unlink` and before unlinking any of the three semaphores; and a
generator that observes the terminate flag at the loop top leaves its search
loop (the guard is false, the control machine moves to `exited`) and
finishes with `EXIT_SUCCESS`. -/
theorem terminate_protocol_order :
    (∀ s : SupState,
      (s.cb.entries (s.cb.rd % NUMBER_OF_ENTRIES)).length = 0 →
        (supervisor_consume s).2 = true
          ∧ ∀ n : Nat, supervisor_run s (n + 1) = (supervisor_consume s).1)
      ∧ supervisor_shutdown.head? = some ResAction.setTerminateFlag
      ∧ ResAction.shmUnlink ∈ supervisor_shutdown.tail
      ∧ ResAction.semUnlink SemName.freeSem ∈ supervisor_shutdown.tail
      ∧ ResAction.semUnlink SemName.usedSem ∈ supervisor_shutdown.tail
      ∧ ResAction.semUnlink SemName.writeSem ∈ supervisor_shutdown.tail
      ∧ (∀ cb : CB, (supervisor_set_terminate cb).signal = 1)
      ∧ (∀ (cb : CB) (q : Bool),
          generator_loop_guard q (supervisor_set_terminate cb).signal = false)
      ∧ (∀ (s : GenRun) (r : WaitResult), s.loc = GLoc.top → s.signal = 1 →
          (gstep s r).loc = GLoc.exited)
      ∧ generator_exit_code = EXIT_SUCCESS := by
  refine ⟨?_, by decide, by decide, by decide, by decide, by decide,
    fun cb => rfl, ?_, ?_, rfl⟩
  · intro s hz
    have hstop := (supervisor_consume_zero s hz).2.2
    refine ⟨hstop, ?_⟩
    intro n
    simp only [supervisor_run, hstop, if_true]
  · intro cb q
    simp [generator_loop_guard, supervisor_set_terminate]
  · intro s r htop hsig
    simp [gstep, htop, generator_loop_guard, hsig]

/-- The generator's control state at the moment it enters the loop on a
fresh channel: at the guard, no signal seen, semaphores at their initial
counts. -/
def grun0 : GenRun :=
  { loc := GLoc.top, quit := false, signal := 0
    write := 1, free := NUMBER_OF_ENTRIES, used := 0 }

/-- C4: the generator passes the guard and acquires the writer lock
(`write_sem` drops from 1 to 0), then its `sem_wait(free_sem)` is
interrupted (EINTR; the interrupting handled signal set `quit`).  The
`continue` puts control back at the loop guard — not at the free wait — so
the free-slots wait is never retried: the next step leaves the loop, with
the writer-lock permit still consumed (`write_sem` stays 0, a net change)
and `free_sem`/`used_sem` untouched. -/
theorem eintr_on_free_wait_is_not_retried :
    (grun grun0 [WaitResult.ok, WaitResult.ok]).loc = GLoc.acquiringFree
      ∧ (grun grun0 [WaitResult.ok, WaitResult.ok]).write = 0
      ∧ (grun grun0 [WaitResult.ok, WaitResult.ok, WaitResult.eintr]).loc = GLoc.top
      ∧ (grun grun0 [WaitResult.ok, WaitResult.ok, WaitResult.eintr]).quit = true
      ∧ (grun grun0 [WaitResult.ok, WaitResult.ok, WaitResult.eintr,
          WaitResult.ok]).loc = GLoc.exited
      ∧ (grun grun0 [WaitResult.ok, WaitResult.ok, WaitResult.eintr,
          WaitResult.ok]).write = 0
      ∧ (grun grun0 [WaitResult.ok, WaitResult.ok, WaitResult.eintr,
          WaitResult.ok]).free = NUMBER_OF_ENTRIES
      ∧ (grun grun0 [WaitResult.ok, WaitResult.ok, WaitResult.eintr,
          WaitResult.ok]).used = 0
      ∧ grun0.write = 1 := by
  decide

/-- C5 counterexample: the generator's exit-path cleanup calls `close_sem`
on all three named semaphores, and `close_sem` (util.c) both closes and
**unlinks** — so the generator does unlink named semaphores. -/
theorem generator_cleanup_unlinks_semaphore :
    ResAction.semUnlink SemName.freeSem ∈ generator_cleanup
      ∧ ResAction.semUnlink SemName.usedSem ∈ generator_cleanup
      ∧ ResAction.semUnlink SemName.writeSem ∈ generator_cleanup := by
  decide

/-- C5 (amended): on its exit path the generator unmaps the shared region,
closes the shared-memory file descriptor, and closes **and unlinks** each of
the three named semaphores; it never unlinks the shared-memory object —
`shm_unlink` appears only in the supervisor's shutdown sequence. -/
theorem generator_cleanup_unlinks_sems_not_shm :
    ResAction.munmapShm ∈ generator_cleanup
      ∧ ResAction.closeShmFd ∈ generator_cleanup
      ∧ ResAction.semClose SemName.freeSem ∈ generator_cleanup
      ∧ ResAction.semClose SemName.usedSem ∈ generator_cleanup
      ∧ ResAction.semClose SemName.writeSem ∈ generator_cleanup
      ∧ ResAction.semUnlink SemName.freeSem ∈ generator_cleanup
      ∧ ResAction.semUnlink SemName.usedSem ∈ generator_cleanup
      ∧ ResAction.semUnlink SemName.writeSem ∈ generator_cleanup
      ∧ ResAction.shmUnlink ∉ generator_cleanup
      ∧ ResAction.shmUnlink ∈ supervisor_shutdown := by
  decide

theorem get_or_add_vertex_found (g : Graph) (k : Int) (i : Nat)
    (h : find_vertex_by_key g.vertices k = some i) :
    get_or_add_vertex g k = (g, i) := by
  unfold get_or_add_vertex
  rw [h]

/-- C10: after graph construction the vertex keys are pairwise distinct,
every stored edge points into the vertex array, and no two stored edges
connect the same pair of vertices in either order; moreover a token whose
two keys are already present adds no vertex, and one that names an
already-present edge (in either vertex order) leaves the graph entirely
unchanged. -/
theorem parse_argv_deduplicates :
    (∀ tokens : List (Int × Int),
      ((parse_argv tokens).vertices.map Vertex.key).Nodup
        ∧ (∀ e ∈ (parse_argv tokens).edges,
            e.1 < (parse_argv tokens).vertices.length
              ∧ e.2 < (parse_argv tokens).vertices.length)
        ∧ (parse_argv tokens).edges.Pairwise
            (fun e f => edge_matches e f.1 f.2 = false))
      ∧ (∀ (g : Graph) (k1 k2 : Int) (i1 i2 : Nat),
          find_vertex_by_key g.vertices k1 = some i1 →
          find_vertex_by_key g.vertices k2 = some i2 →
          ((i1, i2) ∈ g.edges ∨ (i2, i1) ∈ g.edges) →
          parse_token g k1 k2 = g)
      ∧ (∀ (g : Graph) (k1 k2 : Int) (i1 i2 : Nat),
          find_vertex_by_key g.vertices k1 = some i1 →
          find_vertex_by_key g.vertices k2 = some i2 →
          (parse_token g k1 k2).vertices = g.vertices) := by
  refine ⟨?_, ?_, ?_⟩
  · intro tokens
    have h := parse_argv_WF_from tokens ⟨[], []⟩
      ⟨List.nodup_nil, by intro e he; simp at he, List.Pairwise.nil⟩
    exact h
  · intro g k1 k2 i1 i2 h1 h2 hmem
    have hsome : (find_edge_by_vertices g.edges i1 i2).isSome := by
      unfold find_edge_by_vertices
      rw [List.find?_isSome]
      rcases hmem with hm | hm
      · exact ⟨(i1, i2), hm, by simp [edge_matches]⟩
      · exact ⟨(i2, i1), hm, by simp [edge_matches]⟩
    obtain ⟨e, he⟩ := Option.isSome_iff_exists.mp hsome
    unfold parse_token
    dsimp only
    rw [get_or_add_vertex_found g k1 i1 h1, get_or_add_vertex_found g k2 i2 h2,
      he]
  · intro g k1 k2 i1 i2 h1 h2
    unfold parse_token
    dsimp only
    rw [get_or_add_vertex_found g k1 i1 h1, get_or_add_vertex_found g k2 i2 h2]
    cases he : find_edge_by_vertices g.edges i1 i2 with
    | some e => rfl
    | none => simp [add_new_edge]

end ThreeColoring
